import Mathlib

/-!
Verification of the fisheye dewarping core of the vibecast viewer.

The geometric engine (`create_perspective_map`, `extract_center_view`,
`get_room_views` in `camera_capture.py`) is embedded over the real numbers:
NumPy float arrays become functions from pixel indices to `ℝ`, and the
per-pixel array expressions are translated entry-wise.  The caching layer
(`get_unwarped_path`, `unwarp_image` in `app/analyzer.py`) is embedded with an
explicit file-system state, and the two filename parsers
(`parse_ftp_filename` in `app/analyzer.py`, `parse_image_filename` in
`app/s3_service.py`) are embedded as executable functions on strings.
-/

namespace VibecastViewer

/-! ## Geometry: `create_perspective_map` (camera_capture.py)

The source builds, for every output pixel, a camera ray, rotates it by
`R = Ry(theta) @ Rx(phi)`, converts the rotated ray to fisheye polar
coordinates and finally to source-pixel coordinates.  We embed the
computation of one entry of the `map_x`/`map_y` arrays, keeping the
intermediate quantities (`focal`, ray, rotated ray, `angle_from_nadir`,
`azimuth`, `r_fish`) as named definitions that mirror the source's
intermediate variables. -/

/-- `np.radians d` : degrees to radians. -/
noncomputable def radians (d : ℝ) : ℝ := d * Real.pi / 180

/-- `np.clip x (-1) 1`, i.e. `minimum 1 (maximum (-1) x)`. -/
noncomputable def clip1 (x : ℝ) : ℝ := min 1 (max (-1) x)

/-- `np.arctan2 y x`: the angle of the point `(x, y)` in `(-π, π]`,
with `arctan2 0 0 = 0` as in NumPy. -/
noncomputable def atan2 (y x : ℝ) : ℝ :=
  if 0 < x then Real.arctan (y / x)
  else if x < 0 then
    (if 0 ≤ y then Real.arctan (y / x) + Real.pi else Real.arctan (y / x) - Real.pi)
  else if 0 < y then Real.pi / 2
  else if y < 0 then -(Real.pi / 2)
  else 0

/-- A 3×3 real matrix as rows of triples (the source builds `Ry`, `Rx` as
`np.array` literals). -/
abbrev Mat3 : Type := (ℝ × ℝ × ℝ) × (ℝ × ℝ × ℝ) × (ℝ × ℝ × ℝ)

/-- Matrix product of two 3×3 matrices (`Ry @ Rx` in the source). -/
noncomputable def mat3Mul (A B : Mat3) : Mat3 :=
  ((A.1.1 * B.1.1 + A.1.2.1 * B.2.1.1 + A.1.2.2 * B.2.2.1,
    A.1.1 * B.1.2.1 + A.1.2.1 * B.2.1.2.1 + A.1.2.2 * B.2.2.2.1,
    A.1.1 * B.1.2.2 + A.1.2.1 * B.2.1.2.2 + A.1.2.2 * B.2.2.2.2),
   (A.2.1.1 * B.1.1 + A.2.1.2.1 * B.2.1.1 + A.2.1.2.2 * B.2.2.1,
    A.2.1.1 * B.1.2.1 + A.2.1.2.1 * B.2.1.2.1 + A.2.1.2.2 * B.2.2.2.1,
    A.2.1.1 * B.1.2.2 + A.2.1.2.1 * B.2.1.2.2 + A.2.1.2.2 * B.2.2.2.2),
   (A.2.2.1 * B.1.1 + A.2.2.2.1 * B.2.1.1 + A.2.2.2.2 * B.2.2.1,
    A.2.2.1 * B.1.2.1 + A.2.2.2.1 * B.2.1.2.1 + A.2.2.2.2 * B.2.2.2.1,
    A.2.2.1 * B.1.2.2 + A.2.2.2.1 * B.2.1.2.2 + A.2.2.2.2 * B.2.2.2.2))

/-- Apply a 3×3 matrix to a column vector
(`np.einsum('ij,hwj->hwi', R, rays)` applied to one ray). -/
noncomputable def mat3Apply (A : Mat3) (v : ℝ × ℝ × ℝ) : ℝ × ℝ × ℝ :=
  (A.1.1 * v.1 + A.1.2.1 * v.2.1 + A.1.2.2 * v.2.2,
   A.2.1.1 * v.1 + A.2.1.2.1 * v.2.1 + A.2.1.2.2 * v.2.2,
   A.2.2.1 * v.1 + A.2.2.2.1 * v.2.1 + A.2.2.2.2 * v.2.2)

/-- The yaw matrix `Ry = [[cos_t,0,sin_t],[0,1,0],[-sin_t,0,cos_t]]`. -/
noncomputable def RyM (ct st : ℝ) : Mat3 := ((ct, 0, st), (0, 1, 0), (-st, 0, ct))

/-- The pitch matrix `Rx = [[1,0,0],[0,cos_p,-sin_p],[0,sin_p,cos_p]]`. -/
noncomputable def RxM (cp sp : ℝ) : Mat3 := ((1, 0, 0), (0, cp, -sp), (0, sp, cp))

/-- `R = Ry @ Rx` for yaw `theta` and pitch `phi` given in degrees. -/
noncomputable def rotationR (theta phi : ℝ) : Mat3 :=
  mat3Mul (RyM (Real.cos (radians theta)) (Real.sin (radians theta)))
    (RxM (Real.cos (radians phi)) (Real.sin (radians phi)))

/-- `f = out_w / (2 * np.tan(fov_rad / 2))`. -/
noncomputable def focal (out_w : ℤ) (fov : ℝ) : ℝ :=
  (out_w : ℝ) / (2 * Real.tan (radians fov / 2))

/-- The un-normalized camera ray of output pixel `(i, j)` (column `i`,
row `j`): `(x_grid/f, -y_grid/f, 1)` with `x_grid = i - out_w/2`,
`y_grid = j - out_h/2`. -/
noncomputable def pmapRayRaw (out_w out_h : ℤ) (fov : ℝ) (i j : ℕ) : ℝ × ℝ × ℝ :=
  (((i : ℝ) - (out_w : ℝ) / 2) / focal out_w fov,
   -((j : ℝ) - (out_h : ℝ) / 2) / focal out_w fov, 1)

/-- The ray normalized to unit length
(`rays / np.linalg.norm(rays, axis=-1, keepdims=True)`). -/
noncomputable def pmapRay (out_w out_h : ℤ) (fov : ℝ) (i j : ℕ) : ℝ × ℝ × ℝ :=
  let v := pmapRayRaw out_w out_h fov i j
  let n := Real.sqrt (v.1 ^ 2 + v.2.1 ^ 2 + v.2.2 ^ 2)
  (v.1 / n, v.2.1 / n, v.2.2 / n)

/-- The rotated ray `R · ray` (`rays_rotated`). -/
noncomputable def pmapRotated (out_w out_h : ℤ) (fov theta phi : ℝ) (i j : ℕ) : ℝ × ℝ × ℝ :=
  mat3Apply (rotationR theta phi) (pmapRay out_w out_h fov i j)

/-- `angle_from_nadir = np.arccos(np.clip(-ry, -1, 1))`. -/
noncomputable def pmapAngle (out_w out_h : ℤ) (fov theta phi : ℝ) (i j : ℕ) : ℝ :=
  Real.arccos (clip1 (-(pmapRotated out_w out_h fov theta phi i j).2.1))

/-- `azimuth = np.arctan2(rx, rz)`. -/
noncomputable def pmapAzimuth (out_w out_h : ℤ) (fov theta phi : ℝ) (i j : ℕ) : ℝ :=
  atan2 (pmapRotated out_w out_h fov theta phi i j).1
    (pmapRotated out_w out_h fov theta phi i j).2.2

/-- `radius = min(cx, cy)` with `cx, cy = w/2, h/2`. -/
noncomputable def fisheyeRadius (w h : ℕ) : ℝ := min ((w : ℝ) / 2) ((h : ℝ) / 2)

/-- `r_fish = (angle_from_nadir / (np.pi / 2)) * radius`. -/
noncomputable def pmapRfish (w h : ℕ) (out_w out_h : ℤ) (fov theta phi : ℝ) (i j : ℕ) : ℝ :=
  pmapAngle out_w out_h fov theta phi i j / (Real.pi / 2) * fisheyeRadius w h

/-- One entry of the pair of maps returned by `create_perspective_map`:
`(map_x[j][i], map_y[j][i]) = (cx + r_fish*sin(azimuth), cy - r_fish*cos(azimuth))`.
The frame shape is `(h, w)` (`h, w = fisheye_shape[:2]`); `w`, `h` are the
frame's width and height. -/
noncomputable def pmapEntry (w h : ℕ) (out_w out_h : ℤ) (fov theta phi : ℝ) (i j : ℕ) : ℝ × ℝ :=
  ((w : ℝ) / 2 + pmapRfish w h out_w out_h fov theta phi i j *
      Real.sin (pmapAzimuth out_w out_h fov theta phi i j),
   (h : ℝ) / 2 - pmapRfish w h out_w out_h fov theta phi i j *
      Real.cos (pmapAzimuth out_w out_h fov theta phi i j))

/-- The full arrays returned by `create_perspective_map`: `map_x` and `map_y`
as `out_h`-row, `out_w`-column lists of reals (`np.arange n` is empty for
`n ≤ 0`, hence `Int.toNat`). -/
noncomputable def create_perspective_map (w h : ℕ) (out_w out_h : ℤ) (fov theta phi : ℝ) :
    List (List ℝ) × List (List ℝ) :=
  ((List.range out_h.toNat).map fun j =>
      (List.range out_w.toNat).map fun i => (pmapEntry w h out_w out_h fov theta phi i j).1,
   (List.range out_h.toNat).map fun j =>
      (List.range out_w.toNat).map fun i => (pmapEntry w h out_w out_h fov theta phi i j).2)

/-- The source body of `create_perspective_map` contains no validation and no
operation that can raise a Python exception (empty `np.arange` ranges,
division by zero and out-of-range trigonometric arguments all produce values,
not errors), so the run wrapper recording success/failure is total and always
succeeds. -/
noncomputable def create_perspective_map_run (w h : ℕ) (out_w out_h : ℤ) (fov theta phi : ℝ) :
    Except String (List (List ℝ) × List (List ℝ)) :=
  Except.ok (create_perspective_map w h out_w out_h fov theta phi)

/-! ### Spec-side formulation of the projection map (for the refinement claim)

`specPerspectiveEntry` is written from the spec's words (§4.1 and the claim
text), independently of the source translation above: focal length
`f = out_w/(2*tan(fov/2))`, centered ray `(x_c/f, -y_c/f, 1)` normalized,
rotated by `R = Ry(theta)·Rx(phi)`, `angle_from_nadir = arccos(clamp(-ry))`,
`azimuth = atan2(rx, rz)`, `r_fish = (angle_from_nadir/(π/2))*radius` with
`radius = min(w,h)/2`, and finally
`(cx + r_fish*sin(azimuth), cy - r_fish*cos(azimuth))` with
`(cx, cy) = (w/2, h/2)`. -/
noncomputable def specPerspectiveEntry (w h : ℕ) (out_w out_h : ℤ) (fov theta phi : ℝ)
    (i j : ℕ) : ℝ × ℝ :=
  let cx : ℝ := (w : ℝ) / 2
  let cy : ℝ := (h : ℝ) / 2
  let radius : ℝ := min (w : ℝ) (h : ℝ) / 2
  let f : ℝ := (out_w : ℝ) / (2 * Real.tan (radians fov / 2))
  let xc : ℝ := (i : ℝ) - (out_w : ℝ) / 2
  let yc : ℝ := (j : ℝ) - (out_h : ℝ) / 2
  let len : ℝ := Real.sqrt ((xc / f) ^ 2 + (-yc / f) ^ 2 + 1 ^ 2)
  let ray : ℝ × ℝ × ℝ := (xc / f / len, -yc / f / len, 1 / len)
  let R : Mat3 :=
    mat3Mul (RyM (Real.cos (radians theta)) (Real.sin (radians theta)))
      (RxM (Real.cos (radians phi)) (Real.sin (radians phi)))
  let r : ℝ × ℝ × ℝ := mat3Apply R ray
  let angle_from_nadir : ℝ := Real.arccos (clip1 (-r.2.1))
  let azimuth : ℝ := atan2 r.1 r.2.2
  let r_fish : ℝ := angle_from_nadir / (Real.pi / 2) * radius
  (cx + r_fish * Real.sin azimuth, cy - r_fish * Real.cos azimuth)

/-! ## Images, bilinear resampling, `extract_center_view`, `get_room_views`

A frame is modelled as its width, height and a pixel function (one channel;
the three color channels are resampled identically and independently).
`cv2.remap(..., INTER_LINEAR, BORDER_CONSTANT)` is modelled as exact bilinear
interpolation of the four neighbouring pixels, with out-of-bounds neighbours
contributing the constant border value `0`. -/

/-- A decoded frame: `w × h` pixel buffer (single channel). -/
structure Image where
  w : ℕ
  h : ℕ
  pix : ℤ → ℤ → ℝ

/-- A synthesized output view: value of the output pixel at column `i`, row `j`. -/
abbrev RectView : Type := ℕ → ℕ → ℝ

/-- Bilinear sample of `img` at real source coordinates `(sx, sy)`;
out-of-bounds neighbours contribute the border constant `0`. -/
noncomputable def bilinearSample (img : Image) (sx sy : ℝ) : ℝ :=
  let x0 : ℤ := ⌊sx⌋
  let y0 : ℤ := ⌊sy⌋
  let dx : ℝ := sx - (x0 : ℝ)
  let dy : ℝ := sy - (y0 : ℝ)
  let atPix : ℤ → ℤ → ℝ := fun xi yi =>
    if 0 ≤ xi ∧ xi < (img.w : ℤ) ∧ 0 ≤ yi ∧ yi < (img.h : ℤ) then img.pix xi yi else 0
  (1 - dx) * (1 - dy) * atPix x0 y0 + dx * (1 - dy) * atPix (x0 + 1) y0 +
    (1 - dx) * dy * atPix x0 (y0 + 1) + dx * dy * atPix (x0 + 1) (y0 + 1)

/-- `fisheye_to_perspective_fast`: build the projection map for the frame's
shape and remap the frame through it. -/
noncomputable def fisheye_to_perspective_fast (img : Image) (fov theta phi : ℝ)
    (out_w out_h : ℕ) : RectView :=
  fun i j =>
    bilinearSample img (pmapEntry img.w img.h (out_w : ℤ) (out_h : ℤ) fov theta phi i j).1
      (pmapEntry img.w img.h (out_w : ℤ) (out_h : ℤ) fov theta phi i j).2

/-- `np.linspace a b n` at index `i` (`n = 1` yields the start value,
as in NumPy). -/
noncomputable def linspace (a b : ℝ) (n : ℕ) (i : ℕ) : ℝ :=
  if n ≤ 1 then a else a + (b - a) * (i : ℝ) / ((n : ℝ) - 1)

/-- `r_out = np.sqrt(x_grid**2 + y_grid**2)` on the normalized `[-1,1]` grid
of `extract_center_view`. -/
noncomputable def centerROut (out_w out_h : ℕ) (i j : ℕ) : ℝ :=
  Real.sqrt (linspace (-1) 1 out_w i ^ 2 + linspace (-1) 1 out_h j ^ 2)

/-- `theta_out = np.arctan2(y_grid, x_grid)` in `extract_center_view`. -/
noncomputable def centerThetaOut (out_w out_h : ℕ) (i j : ℕ) : ℝ :=
  atan2 (linspace (-1) 1 out_h j) (linspace (-1) 1 out_w i)

/-- `map_x = cx + r_fish * np.cos(theta_out)` in `extract_center_view`,
with `r_fish = r_out * radius * radius_fraction`. -/
noncomputable def centerMapX (img : Image) (radius_fraction : ℝ) (out_w out_h : ℕ)
    (i j : ℕ) : ℝ :=
  (img.w : ℝ) / 2 + centerROut out_w out_h i j * fisheyeRadius img.w img.h * radius_fraction *
    Real.cos (centerThetaOut out_w out_h i j)

/-- `map_y = cy + r_fish * np.sin(theta_out)` in `extract_center_view`. -/
noncomputable def centerMapY (img : Image) (radius_fraction : ℝ) (out_w out_h : ℕ)
    (i j : ℕ) : ℝ :=
  (img.h : ℝ) / 2 + centerROut out_w out_h i j * fisheyeRadius img.w img.h * radius_fraction *
    Real.sin (centerThetaOut out_w out_h i j)

/-- `extract_center_view`: remap through the polar center map, then zero every
output pixel outside the unit disk (`result[~mask] = 0` with
`mask = r_out <= 1.0`).  The masking is applied to the already-resampled
value, so outside the disk the output is the constant `0` regardless of the
resampled value. -/
noncomputable def extract_center_view (img : Image) (radius_fraction : ℝ)
    (out_w out_h : ℕ) : RectView :=
  fun i j =>
    if centerROut out_w out_h i j ≤ 1 then
      bilinearSample img (centerMapX img radius_fraction out_w out_h i j)
        (centerMapY img radius_fraction out_w out_h i j)
    else 0

/-- `get_room_views`: the four cardinal perspective views (in source insertion
order North, East, South, West) followed by the Below view, as an association
list mirroring the Python dict. -/
noncomputable def get_room_views (img : Image) (fov : ℝ := 90)
    (output_size : ℕ × ℕ := (1080, 810)) (view_angle : ℝ := 45)
    (below_fraction : ℝ := 0.6) : List (String × RectView) :=
  [("North", fisheye_to_perspective_fast img fov 0 view_angle output_size.1 output_size.2),
   ("East", fisheye_to_perspective_fast img fov 90 view_angle output_size.1 output_size.2),
   ("South", fisheye_to_perspective_fast img fov 180 view_angle output_size.1 output_size.2),
   ("West", fisheye_to_perspective_fast img fov 270 view_angle output_size.1 output_size.2),
   ("Below", extract_center_view img below_fraction output_size.1 output_size.1)]

/-! ## Filename parsing (`app/analyzer.py`, `app/s3_service.py`)

Both parsers validate the extracted 14-character timestamp with
`datetime.strptime(timestamp_str, '%Y%m%d%H%M%S')`.  On a 14-digit string
this succeeds exactly when the six 2-digit-aligned fields are a valid
Gregorian datetime (year ≥ 1, month 1–12, day within the month taking leap
years into account, hour ≤ 23, minute ≤ 59, second ≤ 59): the field
patterns of `_strptime` can only split 14 digits as 4+2+2+2+2+2, the regex
bounds month/day/hour/minute as stated, and the `datetime` constructor then
rejects an out-of-range day or a leap second.  `validTimestampList` models
this contract. -/

/-- Gregorian leap-year test, as used by `datetime`. -/
def isLeapYear (y : ℕ) : Bool := (y % 4 == 0 && y % 100 != 0) || y % 400 == 0

/-- Number of days in month `m` of year `y` (`datetime`'s calendar). -/
def daysInMonth (y m : ℕ) : ℕ :=
  if m == 2 then (if isLeapYear y then 29 else 28)
  else if m == 4 || m == 6 || m == 9 || m == 11 then 30
  else 31

/-- Value of a digit string (most significant first). -/
def digitsToNat (cs : List Char) : ℕ :=
  cs.foldl (fun n c => 10 * n + (c.toNat - 48)) 0

/-- Whether `datetime.strptime(s, '%Y%m%d%H%M%S')` succeeds on the character
list `cs`: exactly 14 digits forming a valid `YYYYMMDDHHMMSS` datetime. -/
def validTimestampList (cs : List Char) : Bool :=
  cs.length == 14 && cs.all Char.isDigit &&
    (let y := digitsToNat (cs.take 4)
     let mo := digitsToNat ((cs.drop 4).take 2)
     let d := digitsToNat ((cs.drop 6).take 2)
     let hh := digitsToNat ((cs.drop 8).take 2)
     let mi := digitsToNat ((cs.drop 10).take 2)
     let ss := digitsToNat ((cs.drop 12).take 2)
     decide (1 ≤ y ∧ 1 ≤ mo ∧ mo ≤ 12 ∧ 1 ≤ d ∧ d ≤ daysInMonth y mo ∧
       hh ≤ 23 ∧ mi ≤ 59 ∧ ss ≤ 59))

/-- Python `str.replace pat rep` (all occurrences, scanned left to right),
fuel-indexed so that it is structurally recursive; each step consumes at
least one character, so `fuel = s.length` suffices. -/
def replaceAllAux (pat rep : List Char) : ℕ → List Char → List Char
  | _, [] => []
  | 0, s => s
  | fuel + 1, c :: cs =>
    if pat.isPrefixOf (c :: cs) && !pat.isEmpty then
      rep ++ replaceAllAux pat rep fuel ((c :: cs).drop pat.length)
    else
      c :: replaceAllAux pat rep fuel cs

/-- Python `s.replace(pat, rep)` on character lists. -/
def replaceAll (pat rep s : List Char) : List Char :=
  replaceAllAux pat rep s.length s

/-- Core of `parse_ftp_filename` (analyzer.py) on character lists:
require the (case-sensitive) prefix `Reolink_00_`, strip every occurrence of
`Reolink_00_`, `.jpg`, `.mp4`, `.txt`, require exactly 14 characters, and
validate them with `strptime`. -/
def parseFtpCore (cs : List Char) : Option (List Char) :=
  if "Reolink_00_".data.isPrefixOf cs then
    let t := replaceAll ".txt".data []
      (replaceAll ".mp4".data [] (replaceAll ".jpg".data [] (replaceAll "Reolink_00_".data [] cs)))
    if t.length == 14 then (if validTimestampList t then some t else none) else none
  else none

/-- `parse_ftp_filename` (analyzer.py): returns the extracted timestamp
string, or `none` where the Python function returns `None`. -/
def parse_ftp_filename (filename : String) : Option String :=
  (parseFtpCore filename.data).map fun t => String.mk t

/-- The `(\d{14})\.jpg` tail of the regex of `parse_image_filename`: from
the text after the second underscore, capture exactly 14 digits, require the
literal `.jpg` right after them (trailing characters allowed, as `re.match`
does not anchor the end), and validate the capture with `strptime`. -/
def imageTailCheck (rest3 : List Char) : Option (List Char) :=
  let ts14 := rest3.take 14
  if ts14.length == 14 && ts14.all Char.isDigit &&
      ".jpg".data.isPrefixOf (rest3.drop 14) then
    if validTimestampList ts14 then some ts14 else none
  else none

/-- Core of `parse_image_filename` (s3_service.py) on character lists: the
anchored regex match `[Rr]eolink_\d+_(\d{14})\.jpg` (a prefix match),
followed by the `strptime` validation of the captured group. -/
def parseImageCore (cs : List Char) : Option (List Char) :=
  match cs with
  | [] => none
  | c :: rest =>
    if (c == 'R' || c == 'r') && "eolink_".data.isPrefixOf rest then
      let after := rest.drop 7
      let digs := after.takeWhile Char.isDigit
      if digs.isEmpty then none
      else
        match after.drop digs.length with
        | '_' :: rest3 => imageTailCheck rest3
        | _ => none
    else none

/-- `parse_image_filename` (s3_service.py). -/
def parse_image_filename (filename : String) : Option String :=
  (parseImageCore filename.data).map fun t => String.mk t

/-! ## The unwarp cache (`app/analyzer.py`)

The file system is modelled as the set of existing directories and files,
with paths written relative to the data directory (the source manipulates
absolute `Path`s under `data_dir` and returns `relative_to(data_dir)`
strings; only the suffix below `data_dir` matters to the claims).
`unwarp_image` is embedded as an explicit state transformer that also
records the observable effects the claims speak about: how often the source
frame was read/decoded (`cv2.imread`), how often the view-set generator
(`get_room_views`) was invoked, and which files were written. -/

/-- `VIEW_MAP` of analyzer.py, in dict insertion order. -/
def VIEW_MAP : List (String × String) :=
  [("N", "North"), ("S", "South"), ("E", "East"), ("W", "West"), ("B", "Below")]

/-- File-system state: existing directories and existing files. -/
structure FS where
  dirs : List String
  files : List String

/-- Python `Path(p).name`: the part of the path after the last `/`. -/
def afterLastSlash : List Char → List Char
  | [] => []
  | c :: cs => if c = '/' ∨ '/' ∈ cs then afterLastSlash cs else c :: cs

/-- `view_name[0].upper()`: the first character of the view name, uppercased. -/
def shortName (s : String) : String := String.mk ((s.data.take 1).map Char.toUpper)

/-- The date-partitioned cache directory for a timestamp:
`unwarped/{YYYY}/{MM}/{DD}` (`timestamp[:4]`, `[4:6]`, `[6:8]`). -/
def date_dir_str (ts : String) : String :=
  "unwarped/" ++ String.mk (ts.data.take 4) ++ "/" ++ String.mk ((ts.data.drop 4).take 2) ++
    "/" ++ String.mk ((ts.data.drop 6).take 2)

/-- The canonical cache path `unwarped/{YYYY}/{MM}/{DD}/{ts}_{direction}.jpg`. -/
def unwarped_path_str (ts direction : String) : String :=
  date_dir_str ts ++ "/" ++ ts ++ "_" ++ direction ++ ".jpg"

/-- `get_unwarped_path` (analyzer.py): creates the date-partitioned directory
(`mkdir(exist_ok=True, parents=True)`) and returns the path; the directory
creation happens unconditionally, before any caller looks at the path. -/
def get_unwarped_path (ts direction : String) (fs : FS) : String × FS :=
  (unwarped_path_str ts direction,
   { fs with dirs := fs.dirs.insert (date_dir_str ts) })

/-- Result of a call to `unwarp_image`: the returned value (or the message of
the raised `ValueError`), the resulting file system, and the observable
effect counters. -/
structure UnwarpOutcome where
  ret : Except String (List (String × String))
  fs : FS
  sourceReads : ℕ
  genCalls : ℕ
  writes : List String

/-- `unwarp_image` (analyzer.py).  `readImage` models `cv2.imread` on the
FTP-uploads tree (`none` where imread returns `None`).  The function parses
the filename, computes the five expected cache paths (creating the date
directory as a side effect of `get_unwarped_path`), and either returns the
cached paths when all five files exist, or decodes the source frame,
regenerates all five views with `get_room_views` and writes all five files. -/
noncomputable def unwarp_image (readImage : String → Option Image) (image_path : String)
    (fs0 : FS) : UnwarpOutcome :=
  let filename := String.mk (afterLastSlash image_path.data)
  match parse_ftp_filename filename with
  | none =>
    { ret := Except.error ("Invalid filename format: " ++ filename), fs := fs0,
      sourceReads := 0, genCalls := 0, writes := [] }
  | some ts =>
    let acc := VIEW_MAP.foldl
      (fun (acc : FS × List (String × String) × Bool) d =>
        let pfs := get_unwarped_path ts d.1 acc.1
        (pfs.2, acc.2.1 ++ [(d.1, pfs.1)], acc.2.2 && pfs.2.files.contains pfs.1))
      (fs0, [], true)
    let fs1 := acc.1
    let paths := acc.2.1
    if acc.2.2 then
      { ret := Except.ok paths, fs := fs1, sourceReads := 0, genCalls := 0, writes := [] }
    else
      match readImage ("ftp_uploads/" ++ image_path) with
      | none =>
        { ret := Except.error ("Failed to load image: ftp_uploads/" ++ image_path),
          fs := fs1, sourceReads := 1, genCalls := 0, writes := [] }
      | some img =>
        let views := get_room_views img
        let ws := views.map fun v => ((paths.lookup (shortName v.1)).getD "")
        { ret := Except.ok paths,
          fs := { fs1 with files := ws.foldl (fun l p => l.insert p) fs1.files },
          sourceReads := 1, genCalls := 1, writes := ws }

/-! ## Theorems -/

/-- C9: for every input to `create_perspective_map`, the computed `r_fish`
lies in `[0, 2*radius]` (the clamped `arccos` ranges over `[0, π]` and is
divided by `π/2`), so every map entry satisfies `|map_x - cx| ≤ 2*radius`
and `|map_y - cy| ≤ 2*radius` with `radius = min(w,h)/2 = fisheyeRadius w h`:
sampling locations never leave the disk of twice the image-circle radius
centered on the optical center. -/
theorem pmap_entries_within_twice_radius (w h : ℕ) (out_w out_h : ℤ) (fov theta phi : ℝ)
    (i j : ℕ) :
    0 ≤ pmapRfish w h out_w out_h fov theta phi i j ∧
    pmapRfish w h out_w out_h fov theta phi i j ≤ 2 * fisheyeRadius w h ∧
    |(pmapEntry w h out_w out_h fov theta phi i j).1 - (w : ℝ) / 2| ≤ 2 * fisheyeRadius w h ∧
    |(pmapEntry w h out_w out_h fov theta phi i j).2 - (h : ℝ) / 2| ≤ 2 * fisheyeRadius w h := by
  have hrad : 0 ≤ fisheyeRadius w h := by
    unfold fisheyeRadius
    exact le_min (by positivity) (by positivity)
  have hpi : (0 : ℝ) < Real.pi / 2 := by positivity
  have hang0 : 0 ≤ pmapAngle out_w out_h fov theta phi i j := Real.arccos_nonneg _
  have hangpi : pmapAngle out_w out_h fov theta phi i j ≤ Real.pi := Real.arccos_le_pi _
  have hr0 : 0 ≤ pmapRfish w h out_w out_h fov theta phi i j :=
    mul_nonneg (div_nonneg hang0 hpi.le) hrad
  have hr2 : pmapRfish w h out_w out_h fov theta phi i j ≤ 2 * fisheyeRadius w h := by
    have hdiv : pmapAngle out_w out_h fov theta phi i j / (Real.pi / 2) ≤ 2 :=
      (div_le_iff₀ hpi).2 (by linarith)
    unfold pmapRfish
    exact mul_le_mul_of_nonneg_right hdiv hrad
  refine ⟨hr0, hr2, ?_, ?_⟩
  · have hx : (pmapEntry w h out_w out_h fov theta phi i j).1 - (w : ℝ) / 2 =
        pmapRfish w h out_w out_h fov theta phi i j *
          Real.sin (pmapAzimuth out_w out_h fov theta phi i j) := by
      unfold pmapEntry; ring
    rw [hx, abs_mul, abs_of_nonneg hr0]
    have hs := mul_le_mul_of_nonneg_left
      (Real.abs_sin_le_one (pmapAzimuth out_w out_h fov theta phi i j)) hr0
    rw [mul_one] at hs
    exact hs.trans hr2
  · have hy : (pmapEntry w h out_w out_h fov theta phi i j).2 - (h : ℝ) / 2 =
        -(pmapRfish w h out_w out_h fov theta phi i j *
          Real.cos (pmapAzimuth out_w out_h fov theta phi i j)) := by
      unfold pmapEntry; ring
    rw [hy, abs_neg, abs_mul, abs_of_nonneg hr0]
    have hc := mul_le_mul_of_nonneg_left
      (Real.abs_cos_le_one (pmapAzimuth out_w out_h fov theta phi i j)) hr0
    rw [mul_one] at hc
    exact hc.trans hr2

/-- C4: every output pixel of `extract_center_view` whose normalized grid
radius exceeds `1` has the exact value zero, for every frame, radius
fraction and output size; the zeroing is applied to the already-resampled
image (the masking branch overrides the `bilinearSample` value). -/
theorem extract_center_view_masks_outside_disk (img : Image) (radius_fraction : ℝ)
    (out_w out_h i j : ℕ) (hout : 1 < centerROut out_w out_h i j) :
    extract_center_view img radius_fraction out_w out_h i j = 0 := by
  unfold extract_center_view
  rw [if_neg (not_le.mpr hout)]

/-- Witness for C4: the corner pixel `(0,0)` of a `2×2` output grid has
`r_out = √2 > 1` and is therefore exactly zero, even for a frame whose every
pixel has value `5`. -/
theorem extract_center_view_masks_outside_disk_witness :
    1 < centerROut 2 2 0 0 ∧
    extract_center_view ⟨2, 2, fun _ _ => 5⟩ 0.6 2 2 0 0 = 0 := by
  have hr : centerROut 2 2 0 0 = Real.sqrt 2 := by
    unfold centerROut linspace
    norm_num
  have h1 : 1 < centerROut 2 2 0 0 := by
    rw [hr]
    rw [show (1 : ℝ) < Real.sqrt 2 ↔ (1 : ℝ) ^ 2 < 2 from Real.lt_sqrt (by norm_num)]
    norm_num
  exact ⟨h1, extract_center_view_masks_outside_disk _ _ _ _ _ _ h1⟩

/-- C5: `get_room_views` returns exactly the five keys North, East, South,
West, Below; the cardinal views use yaw 0/90/180/270 with the common pitch
`view_angle` and field of view `fov` at the cardinal output size, the Below
view is a square of side `output_size.1` extracted with `below_fraction`,
and the default parameters are `fov = 90`, `output_size = (1080, 810)`,
`view_angle = 45`, `below_fraction = 0.6`. -/
theorem get_room_views_exactly_five (img : Image) (fov : ℝ) (osz : ℕ × ℕ) (va bf : ℝ) :
    (get_room_views img fov osz va bf).map Prod.fst =
      ["North", "East", "South", "West", "Below"] ∧
    List.lookup "North" (get_room_views img fov osz va bf) =
      some (fisheye_to_perspective_fast img fov 0 va osz.1 osz.2) ∧
    List.lookup "East" (get_room_views img fov osz va bf) =
      some (fisheye_to_perspective_fast img fov 90 va osz.1 osz.2) ∧
    List.lookup "South" (get_room_views img fov osz va bf) =
      some (fisheye_to_perspective_fast img fov 180 va osz.1 osz.2) ∧
    List.lookup "West" (get_room_views img fov osz va bf) =
      some (fisheye_to_perspective_fast img fov 270 va osz.1 osz.2) ∧
    List.lookup "Below" (get_room_views img fov osz va bf) =
      some (extract_center_view img bf osz.1 osz.1) ∧
    get_room_views img = get_room_views img 90 (1080, 810) 45 0.6 := by
  refine ⟨rfl, rfl, rfl, rfl, rfl, rfl, rfl⟩

/-- Shared evaluation helper: at `theta = 0`, `phi = 0`, `fov = 90`, the
output pixel with centered coordinates `(0,0)` has ray `(0,0,1)`, hence
`angle_from_nadir = arccos 0 = π/2`, `azimuth = 0`, `r_fish = radius`, and
the map entry is `(cx, cy - radius)` — the top of the fisheye image circle,
not its center. -/
theorem pmapEntry_center_eval (w h : ℕ) (out_w out_h : ℤ) (i j : ℕ)
    (hi : 2 * (i : ℤ) = out_w) (hj : 2 * (j : ℤ) = out_h) :
    pmapEntry w h out_w out_h 90 0 0 i j = ((w : ℝ) / 2, (h : ℝ) / 2 - fisheyeRadius w h) := by
  have hw : ((out_w : ℤ) : ℝ) = 2 * (i : ℝ) := by exact_mod_cast hi.symm
  have hh : ((out_h : ℤ) : ℝ) = 2 * (j : ℝ) := by exact_mod_cast hj.symm
  have hraw : pmapRayRaw out_w out_h 90 i j = (0, 0, 1) := by
    simp only [pmapRayRaw, hw, hh]
    norm_num
  have hray : pmapRay out_w out_h 90 i j = (0, 0, 1) := by
    simp only [pmapRay, hraw]
    norm_num
  have hrot : rotationR 0 0 = ((1, 0, 0), (0, 1, 0), (0, 0, 1)) := by
    simp only [rotationR, RyM, RxM, mat3Mul, radians]
    norm_num
  have hrotv : pmapRotated out_w out_h 90 0 0 i j = (0, 0, 1) := by
    simp only [pmapRotated, hray, hrot, mat3Apply]
    norm_num
  have hang : pmapAngle out_w out_h 90 0 0 i j = Real.pi / 2 := by
    simp only [pmapAngle, hrotv]
    norm_num [clip1, Real.arccos_zero]
  have haz : pmapAzimuth out_w out_h 90 0 0 i j = 0 := by
    simp only [pmapAzimuth, hrotv, atan2]
    rw [if_pos (by norm_num : (0 : ℝ) < 1)]
    norm_num [Real.arctan_zero]
  have hrf : pmapRfish w h out_w out_h 90 0 0 i j = fisheyeRadius w h := by
    simp only [pmapRfish, hang]
    rw [div_self (ne_of_gt (by positivity : (0 : ℝ) < Real.pi / 2)), one_mul]
  simp only [pmapEntry, hrf, haz]
  norm_num [Real.sin_zero, Real.cos_zero]

/-- C3 (counterexample): for the 2×2 fisheye frame and a 2×2 output,
`theta = 0`, `phi = 0`, `fov = 90`, the exact-center output pixel `(1,1)`
(centered coordinates `(0,0)`) maps to `(1, 0) = (cx, cy - radius)`, not to
the optical center `(cx, cy) = (1, 1)`: the claim as stated is false. -/
theorem pmap_center_pixel_not_center_counterexample :
    pmapEntry 2 2 2 2 90 0 0 1 1 = (1, 0) ∧
    pmapEntry 2 2 2 2 90 0 0 1 1 ≠ ((2 : ℝ) / 2, (2 : ℝ) / 2) := by
  have hev := pmapEntry_center_eval 2 2 2 2 1 1 (by norm_num) (by norm_num)
  have hval : pmapEntry 2 2 2 2 90 0 0 1 1 = (1, 0) := by
    rw [hev]
    norm_num [fisheyeRadius]
  refine ⟨hval, ?_⟩
  rw [hval]
  intro hcontra
  have h2 := congrArg Prod.snd hcontra
  norm_num at h2

/-- C3 (amended): for `theta = 0`, `phi = 0`, `fov = 90` and any frame shape
and output size, the exact-center output pixel maps to `(cx, cy - radius)`,
the topmost point of the fisheye image circle: with `theta = phi = 0` the
virtual camera looks horizontally (along `+z`), 90° away from the nadir,
so the undeviated center ray lands on the image-circle boundary above the
optical center, not on the center itself. -/
theorem pmap_center_pixel_maps_to_circle_top (w h : ℕ) (out_w out_h : ℤ) (i j : ℕ)
    (hi : 2 * (i : ℤ) = out_w) (hj : 2 * (j : ℤ) = out_h) :
    pmapEntry w h out_w out_h 90 0 0 i j = ((w : ℝ) / 2, (h : ℝ) / 2 - fisheyeRadius w h) :=
  pmapEntry_center_eval w h out_w out_h i j hi hj

/-- Witness for the amended C3 at the concrete frame `4×6` with a `4×2`
output: the center pixel `(2,1)` maps to `(cx, cy - radius) = (2, 1)`. -/
theorem pmap_center_pixel_maps_to_circle_top_witness :
    2 * (2 : ℤ) = 4 ∧ 2 * (1 : ℤ) = 2 ∧
    pmapEntry 4 6 4 2 90 0 0 2 1 = (2, 1) := by
  refine ⟨by norm_num, by norm_num, ?_⟩
  have h := pmap_center_pixel_maps_to_circle_top 4 6 4 2 2 1 (by norm_num) (by norm_num)
  rw [h]
  norm_num [fisheyeRadius]

/-- C1: for positive frame and output dimensions and `fov ∈ (0,180)`, every
entry of the maps returned by `create_perspective_map` is exactly the spec's
pinhole-to-fisheye inversion (`specPerspectiveEntry`, written from the spec
text with `radius = min(w,h)/2`), and the returned arrays are `out_h` rows of
`out_w` entries of those values. -/
theorem create_perspective_map_matches_spec (w h : ℕ) (out_w out_h : ℤ)
    (fov theta phi : ℝ) (_hw : 0 < w) (_hh : 0 < h) (_how : 0 < out_w) (_hoh : 0 < out_h)
    (_hfov0 : 0 < fov) (_hfov1 : fov < 180) :
    (∀ i j : ℕ, pmapEntry w h out_w out_h fov theta phi i j =
      specPerspectiveEntry w h out_w out_h fov theta phi i j) ∧
    create_perspective_map w h out_w out_h fov theta phi =
      ((List.range out_h.toNat).map fun j => (List.range out_w.toNat).map fun i =>
          (specPerspectiveEntry w h out_w out_h fov theta phi i j).1,
       (List.range out_h.toNat).map fun j => (List.range out_w.toNat).map fun i =>
          (specPerspectiveEntry w h out_w out_h fov theta phi i j).2) := by
  have hmin : fisheyeRadius w h = min (w : ℝ) (h : ℝ) / 2 := by
    unfold fisheyeRadius
    exact min_div_div_right (by norm_num) _ _
  have hent : ∀ i j : ℕ, pmapEntry w h out_w out_h fov theta phi i j =
      specPerspectiveEntry w h out_w out_h fov theta phi i j := by
    intro i j
    simp only [pmapEntry, pmapRfish, pmapAngle, pmapAzimuth, pmapRotated, pmapRay,
      pmapRayRaw, rotationR, focal, specPerspectiveEntry, hmin]
  exact ⟨hent, by simp only [create_perspective_map, hent]⟩

/-- Witness for C1 at a concrete admissible input (`w = h = 2`, output `2×2`,
`fov = 90`, `theta = phi = 0`): the hypotheses hold and the entry at `(0,0)`
matches the spec formula. -/
theorem create_perspective_map_matches_spec_witness :
    (0 < 2 ∧ (0 : ℤ) < 2 ∧ (0 : ℝ) < 90 ∧ (90 : ℝ) < 180) ∧
    pmapEntry 2 2 2 2 90 0 0 0 0 = specPerspectiveEntry 2 2 2 2 90 0 0 0 0 := by
  refine ⟨by norm_num, ?_⟩
  exact (create_perspective_map_matches_spec 2 2 2 2 90 0 0 (by norm_num) (by norm_num)
    (by norm_num) (by norm_num) (by norm_num) (by norm_num)).1 0 0

/-- C7 (counterexample): `create_perspective_map` with `out_w = 0`
(a non-positive output dimension) does not fail: it returns normally with
maps of `out_h` empty rows, refuting "fails if and only if `out_w` or
`out_h` is non-positive" (no validation of output size, fov or angles exists
in the function). -/
theorem create_perspective_map_zero_width_succeeds :
    create_perspective_map_run 800 600 0 4 90 0 0 =
      Except.ok ([[], [], [], []], [[], [], [], []]) := rfl

/-- C7 (amended): `create_perspective_map` never fails and performs no input
validation: for every input — including non-positive output dimensions and
out-of-range fov or angles — it returns normally (the run wrapper always
yields `ok`), producing `max(out_h,0)` rows of `max(out_w,0)` entries each;
as a pure function it is deterministic and side-effect-free. -/
theorem create_perspective_map_total (w h : ℕ) (out_w out_h : ℤ) (fov theta phi : ℝ) :
    create_perspective_map_run w h out_w out_h fov theta phi =
      Except.ok (create_perspective_map w h out_w out_h fov theta phi) ∧
    (create_perspective_map w h out_w out_h fov theta phi).1.length = out_h.toNat ∧
    (create_perspective_map w h out_w out_h fov theta phi).2.length = out_h.toNat ∧
    (∀ row ∈ (create_perspective_map w h out_w out_h fov theta phi).1,
      row.length = out_w.toNat) ∧
    (∀ row ∈ (create_perspective_map w h out_w out_h fov theta phi).2,
      row.length = out_w.toNat) := by
  refine ⟨rfl, ?_, ?_, ?_, ?_⟩ <;>
    simp [create_perspective_map, List.mem_map, List.length_map, List.length_range]

/-- Helper: rotating the plane vector `(x, y) = (c, a)` about the origin by a
quarter turn adds `π/2` to its `atan2` angle, provided `c > 0` (so that no
wrap-around past `π` can occur): `atan2 c (-a) = atan2 a c + π/2`. -/
theorem atan2_quarter_turn (a c : ℝ) (hc : 0 < c) :
    atan2 c (-a) = atan2 a c + Real.pi / 2 := by
  have hc' : c ≠ 0 := ne_of_gt hc
  rcases lt_trichotomy a 0 with ha | ha | ha
  · have h1 : (0 : ℝ) < -a := by linarith
    unfold atan2
    rw [if_pos h1, if_pos hc]
    rw [show c / -a = (-(a / c))⁻¹ from by rw [← neg_div, inv_div]]
    rw [Real.arctan_inv_of_pos (neg_pos.mpr (div_neg_of_neg_of_pos ha hc)), Real.arctan_neg]
    ring
  · subst ha
    unfold atan2
    simp only [neg_zero, lt_irrefl, if_false, if_pos hc]
    norm_num [Real.arctan_zero]
  · have h1 : -a < 0 := by linarith
    unfold atan2
    rw [if_neg (by linarith : ¬ (0 : ℝ) < -a), if_pos h1, if_pos hc.le, if_pos hc]
    rw [show c / -a = -((a / c)⁻¹) from by rw [div_neg, inv_div]]
    rw [Real.arctan_neg, Real.arctan_inv_of_pos (div_pos ha hc)]
    ring

/-- C6: for `phi = 0` and any frame shape, output size and fov, the map at
`theta = 90` is the exact quarter-turn of the map at `theta = 0`: per output
pixel the azimuth increases by exactly `π/2` (90°), `angle_from_nadir` is
unchanged (hence `r_fish` is unchanged), and the offset vector
`(map_x - cx, map_y - cy)` at `theta = 90` is the `theta = 0` offset vector
rotated by a quarter turn about the fisheye center. -/
theorem pmap_theta90_is_quarter_turn (w h : ℕ) (out_w out_h : ℤ) (fov : ℝ) (i j : ℕ) :
    pmapAzimuth out_w out_h fov 90 0 i j =
      pmapAzimuth out_w out_h fov 0 0 i j + Real.pi / 2 ∧
    pmapAngle out_w out_h fov 90 0 i j = pmapAngle out_w out_h fov 0 0 i j ∧
    (pmapEntry w h out_w out_h fov 90 0 i j).1 - (w : ℝ) / 2 =
      -((pmapEntry w h out_w out_h fov 0 0 i j).2 - (h : ℝ) / 2) ∧
    (pmapEntry w h out_w out_h fov 90 0 i j).2 - (h : ℝ) / 2 =
      (pmapEntry w h out_w out_h fov 0 0 i j).1 - (w : ℝ) / 2 := by
  have hc : 0 < (pmapRay out_w out_h fov i j).2.2 := by
    simp only [pmapRay, pmapRayRaw]
    positivity
  have hrot0 : pmapRotated out_w out_h fov 0 0 i j = pmapRay out_w out_h fov i j := by
    simp only [pmapRotated, rotationR, RyM, RxM, mat3Mul, mat3Apply, radians]
    norm_num
  have hrot90 : pmapRotated out_w out_h fov 90 0 i j =
      ((pmapRay out_w out_h fov i j).2.2, (pmapRay out_w out_h fov i j).2.1,
        -(pmapRay out_w out_h fov i j).1) := by
    simp only [pmapRotated, rotationR, RyM, RxM, mat3Mul, mat3Apply, radians]
    rw [show (90 : ℝ) * Real.pi / 180 = Real.pi / 2 from by ring]
    norm_num [Real.cos_pi_div_two, Real.sin_pi_div_two]
  have haz : pmapAzimuth out_w out_h fov 90 0 i j =
      pmapAzimuth out_w out_h fov 0 0 i j + Real.pi / 2 := by
    simp only [pmapAzimuth, hrot90, hrot0]
    exact atan2_quarter_turn _ _ hc
  have hang : pmapAngle out_w out_h fov 90 0 i j = pmapAngle out_w out_h fov 0 0 i j := by
    simp only [pmapAngle, hrot90, hrot0]
  have hrf : pmapRfish w h out_w out_h fov 90 0 i j =
      pmapRfish w h out_w out_h fov 0 0 i j := by
    simp only [pmapRfish, hang]
  refine ⟨haz, hang, ?_, ?_⟩
  · simp only [pmapEntry]
    rw [haz, hrf, Real.sin_add_pi_div_two]
    ring
  · simp only [pmapEntry]
    rw [haz, hrf, Real.cos_add_pi_div_two]
    ring

/-- The five `(direction, cache path)` pairs returned by `unwarp_image`,
in `VIEW_MAP` key order. -/
def expectedPaths (ts : String) : List (String × String) :=
  VIEW_MAP.map fun d => (d.1, unwarped_path_str ts d.1)

/-- Whether all five cached view files for timestamp `ts` exist in `fs`. -/
def allCached (ts : String) (fs : FS) : Bool :=
  VIEW_MAP.all fun d => fs.files.contains (unwarped_path_str ts d.1)

/-- The five files written on regeneration, in `get_room_views` dict order
(North, East, South, West, Below). -/
def writtenPaths (ts : String) : List String :=
  ["N", "E", "S", "W", "B"].map (unwarped_path_str ts)

/-- Closed form of `unwarp_image`: the five-direction fold computes the
expected paths, creates the date directory once, and checks the cache
against the incoming file set. -/
theorem unwarp_image_eq (readImage : String → Option Image) (image_path : String) (fs0 : FS) :
    unwarp_image readImage image_path fs0 =
      (match parse_ftp_filename (String.mk (afterLastSlash image_path.data)) with
       | none =>
         { ret := Except.error ("Invalid filename format: " ++
             String.mk (afterLastSlash image_path.data)),
           fs := fs0, sourceReads := 0, genCalls := 0, writes := [] }
       | some ts =>
         if allCached ts fs0 then
           { ret := Except.ok (expectedPaths ts),
             fs := { fs0 with dirs := fs0.dirs.insert (date_dir_str ts) },
             sourceReads := 0, genCalls := 0, writes := [] }
         else
           match readImage ("ftp_uploads/" ++ image_path) with
           | none =>
             { ret := Except.error ("Failed to load image: ftp_uploads/" ++ image_path),
               fs := { fs0 with dirs := fs0.dirs.insert (date_dir_str ts) },
               sourceReads := 1, genCalls := 0, writes := [] }
           | some _img =>
             { ret := Except.ok (expectedPaths ts),
               fs := { dirs := fs0.dirs.insert (date_dir_str ts),
                       files := (writtenPaths ts).foldl (fun l p => l.insert p) fs0.files },
               sourceReads := 1, genCalls := 1, writes := writtenPaths ts }) := by
  have hins : ∀ (l : List String) (a : String), (l.insert a).insert a = l.insert a :=
    fun l a => List.insert_of_mem (List.mem_insert_self a l)
  have hsnN : shortName "North" = "N" := rfl
  have hsnE : shortName "East" = "E" := rfl
  have hsnS : shortName "South" = "S" := rfl
  have hsnW : shortName "West" = "W" := rfl
  have hsnB : shortName "Below" = "B" := rfl
  unfold unwarp_image
  cases hp : parse_ftp_filename (String.mk (afterLastSlash image_path.data)) with
  | none => simp [hp]
  | some ts =>
    cases hri : readImage ("ftp_uploads/" ++ image_path) with
    | none =>
      simp [hp, VIEW_MAP, get_unwarped_path, expectedPaths, allCached, writtenPaths,
        Bool.and_assoc, hins, hri, get_room_views, hsnN, hsnE, hsnS, hsnW, hsnB,
        List.lookup]
    | some _img =>
      simp [hp, VIEW_MAP, get_unwarped_path, expectedPaths, allCached, writtenPaths,
        Bool.and_assoc, hins, hri, get_room_views, hsnN, hsnE, hsnS, hsnW, hsnB,
        List.lookup]

/-- Membership in a fold of `List.insert` over an initial list, from
membership in the initial list. -/
theorem mem_foldl_insert_init (ws : List String) :
    ∀ (l : List String) (p : String), p ∈ l → p ∈ ws.foldl (fun acc q => acc.insert q) l := by
  induction ws with
  | nil => intro l p hp; exact hp
  | cons q ws ih => intro l p hp; exact ih _ _ (List.mem_insert_of_mem hp)

/-- Membership in a fold of `List.insert`, from membership in the inserted
list. -/
theorem mem_foldl_insert (ws : List String) :
    ∀ (l : List String) (p : String), p ∈ ws → p ∈ ws.foldl (fun acc q => acc.insert q) l := by
  induction ws with
  | nil => intro l p hp; cases hp
  | cons q ws ih =>
    intro l p hp
    rcases List.mem_cons.mp hp with h | h
    · subst h
      exact mem_foldl_insert_init ws _ _ (List.mem_insert_self _ _)
    · exact ih _ _ h

/-- C2: when the filename parses to a timestamp `ts`, `unwarp_image` is an
all-or-nothing cache: if all five cached files exist it returns the five
relative paths without reading the source frame (`sourceReads = 0`) and
without invoking view generation (`genCalls = 0`), writing nothing and
leaving the file set unchanged; otherwise (at least one file missing, source
decodable) it decodes the source exactly once, invokes view generation
exactly once, regenerates the full set and overwrites all five files. -/
theorem unwarp_image_cache_policy (readImage : String → Option Image) (image_path : String)
    (fs0 : FS) (ts : String)
    (hp : parse_ftp_filename (String.mk (afterLastSlash image_path.data)) = some ts) :
    (allCached ts fs0 = true →
      (unwarp_image readImage image_path fs0).ret = Except.ok (expectedPaths ts) ∧
      (unwarp_image readImage image_path fs0).sourceReads = 0 ∧
      (unwarp_image readImage image_path fs0).genCalls = 0 ∧
      (unwarp_image readImage image_path fs0).writes = [] ∧
      (unwarp_image readImage image_path fs0).fs.files = fs0.files) ∧
    (allCached ts fs0 = false →
      ∀ img, readImage ("ftp_uploads/" ++ image_path) = some img →
      (unwarp_image readImage image_path fs0).ret = Except.ok (expectedPaths ts) ∧
      (unwarp_image readImage image_path fs0).sourceReads = 1 ∧
      (unwarp_image readImage image_path fs0).genCalls = 1 ∧
      (unwarp_image readImage image_path fs0).writes = writtenPaths ts ∧
      ∀ p ∈ writtenPaths ts, p ∈ (unwarp_image readImage image_path fs0).fs.files) := by
  rw [unwarp_image_eq readImage image_path fs0]
  simp only [hp]
  constructor
  · intro hall
    rw [if_pos hall]
    exact ⟨rfl, rfl, rfl, rfl, rfl⟩
  · intro hall img hri
    rw [if_neg (by rw [hall]; exact Bool.false_ne_true)]
    simp only [hri]
    exact ⟨by trivial, by trivial, by trivial, by trivial,
      fun p hpw => mem_foldl_insert _ _ _ hpw⟩

/-- Witness for C2: with all five cached files for `20260126233811` present,
no decode and no generation happen; with an empty file system and a
decodable source, exactly one decode and one generation happen and all five
paths are written. -/
theorem unwarp_image_cache_policy_witness :
    ((unwarp_image (fun _ => none) "Reolink_00_20260126233811.jpg"
        ⟨[], writtenPaths "20260126233811"⟩).sourceReads = 0 ∧
     (unwarp_image (fun _ => none) "Reolink_00_20260126233811.jpg"
        ⟨[], writtenPaths "20260126233811"⟩).genCalls = 0) ∧
    ((unwarp_image (fun _ => some ⟨2, 2, fun _ _ => 0⟩) "Reolink_00_20260126233811.jpg"
        ⟨[], []⟩).sourceReads = 1 ∧
     (unwarp_image (fun _ => some ⟨2, 2, fun _ _ => 0⟩) "Reolink_00_20260126233811.jpg"
        ⟨[], []⟩).genCalls = 1 ∧
     (unwarp_image (fun _ => some ⟨2, 2, fun _ _ => 0⟩) "Reolink_00_20260126233811.jpg"
        ⟨[], []⟩).writes = writtenPaths "20260126233811") := by
  have h1 := (unwarp_image_cache_policy (fun _ => none) "Reolink_00_20260126233811.jpg"
    ⟨[], writtenPaths "20260126233811"⟩ "20260126233811" (by decide)).1 (by decide)
  have h2 := (unwarp_image_cache_policy (fun _ => some ⟨2, 2, fun _ _ => 0⟩)
    "Reolink_00_20260126233811.jpg" ⟨[], []⟩ "20260126233811" (by decide)).2 (by decide)
    ⟨2, 2, fun _ _ => 0⟩ rfl
  exact ⟨⟨h1.2.1, h1.2.2.1⟩, h2.2.1, h2.2.2.1, h2.2.2.2.1⟩

/-- C10: every call to `unwarp_image` with a parseable filename creates the
date-partitioned cache directory for the timestamp as a side effect — even
on a full cache hit, and even when the source frame fails to decode —
because computing each expected path via `get_unwarped_path` performs the
directory creation before the existence check. -/
theorem unwarp_image_creates_date_dir (readImage : String → Option Image)
    (image_path : String) (fs0 : FS) (ts : String)
    (hp : parse_ftp_filename (String.mk (afterLastSlash image_path.data)) = some ts) :
    date_dir_str ts ∈ (unwarp_image readImage image_path fs0).fs.dirs := by
  rw [unwarp_image_eq readImage image_path fs0]
  simp only [hp]
  cases hall : allCached ts fs0 with
  | false =>
    cases hri : readImage ("ftp_uploads/" ++ image_path) with
    | none => simp [hri, List.mem_insert_self]
    | some img => simp [hri, List.mem_insert_self]
  | true => simp [List.mem_insert_self]

/-- Witness for C10: a full-path upload with a parseable filename creates
`unwarped/2026/01/26` even though the source decode fails. -/
theorem unwarp_image_creates_date_dir_witness :
    "unwarped/2026/01/26" ∈
      (unwarp_image (fun _ => none) "2026/01/26/Reolink_00_20260126233811.jpg"
        ⟨[], []⟩).fs.dirs := by
  have h := unwarp_image_creates_date_dir (fun _ => none)
    "2026/01/26/Reolink_00_20260126233811.jpg" ⟨[], []⟩ "20260126233811" (by decide)
  have hd : date_dir_str "20260126233811" = "unwarped/2026/01/26" := by decide
  rwa [hd] at h

/-! ### List and `replaceAll` lemmas used by the filename-parser claims -/

/-- A list is a `isPrefixOf` of itself. -/
theorem isPrefixOf_self (l : List Char) : l.isPrefixOf l = true := by
  induction l with
  | nil => simp [List.isPrefixOf]
  | cons a as ih => simp [List.isPrefixOf, ih]

/-- A list is a `isPrefixOf` of itself followed by anything. -/
theorem isPrefixOf_self_append (l r : List Char) : l.isPrefixOf (l ++ r) = true := by
  induction l with
  | nil => simp [List.isPrefixOf]
  | cons a as ih => simp [List.isPrefixOf, ih]

/-- `replaceAllAux` on the empty string, for any fuel. -/
theorem replaceAllAux_nil_fuel (pat rep : List Char) (fuel : ℕ) :
    replaceAllAux pat rep fuel [] = [] := by
  cases fuel <;> rfl

/-- If the pattern's first character never occurs in `s`, `replaceAllAux`
leaves `s` unchanged. -/
theorem replaceAllAux_no_occ (p0 : Char) (pr rep : List Char) :
    ∀ (s : List Char), p0 ∉ s → ∀ fuel, replaceAllAux (p0 :: pr) rep fuel s = s := by
  intro s
  induction s with
  | nil => intro _ fuel; exact replaceAllAux_nil_fuel _ _ _
  | cons c cs ih =>
    intro h fuel
    cases fuel with
    | zero => rfl
    | succ f =>
      have hc : p0 ≠ c := fun he => h (by rw [he]; exact List.mem_cons_self c cs)
      have hb : (p0 == c) = false := beq_eq_false_iff_ne.mpr hc
      have htail : p0 ∉ cs := fun hm => h (List.mem_cons_of_mem _ hm)
      simp [replaceAllAux, List.isPrefixOf, hb, ih htail]

/-- If the pattern's first character never occurs in `s`, `replaceAll`
leaves `s` unchanged. -/
theorem replaceAll_no_occ (p0 : Char) (pr rep s : List Char) (h : p0 ∉ s) :
    replaceAll (p0 :: pr) rep s = s :=
  replaceAllAux_no_occ p0 pr rep s h _

/-- Consuming the pattern at the head of the scanned string. -/
theorem replaceAllAux_cons_self (p0 : Char) (pr rest : List Char) (f : ℕ) :
    replaceAllAux (p0 :: pr) [] (f + 1) (p0 :: (pr ++ rest)) =
      replaceAllAux (p0 :: pr) [] f rest := by
  have hpre : (p0 :: pr).isPrefixOf (p0 :: (pr ++ rest)) = true :=
    isPrefixOf_self_append (p0 :: pr) rest
  simp [replaceAllAux, hpre, List.drop_left]

/-- Deleting a pattern that occurs exactly once, at the front. -/
theorem replaceAll_cancel_prefix (p0 : Char) (pr rest : List Char) (h : p0 ∉ rest) :
    replaceAll (p0 :: pr) [] ((p0 :: pr) ++ rest) = rest := by
  unfold replaceAll
  show replaceAllAux (p0 :: pr) [] ((pr ++ rest).length + 1) (p0 :: (pr ++ rest)) = rest
  rw [replaceAllAux_cons_self]
  exact replaceAllAux_no_occ p0 pr [] rest h _

/-- Deleting a pattern that occurs exactly once, at the end
(auxiliary, fuel-indexed). -/
theorem replaceAllAux_strip_end (p0 : Char) (pr : List Char) :
    ∀ (ts : List Char), p0 ∉ ts → ∀ fuel, ts.length < fuel →
      replaceAllAux (p0 :: pr) [] fuel (ts ++ (p0 :: pr)) = ts := by
  intro ts
  induction ts with
  | nil =>
    intro _ fuel hf
    cases fuel with
    | zero => omega
    | succ f =>
      have hpre : (p0 :: pr).isPrefixOf (p0 :: pr) = true := isPrefixOf_self (p0 :: pr)
      simp [replaceAllAux, hpre, List.drop_length, replaceAllAux_nil_fuel]
  | cons c cs ih =>
    intro h fuel hf
    cases fuel with
    | zero => omega
    | succ f =>
      have hc : p0 ≠ c := fun he => h (by rw [he]; exact List.mem_cons_self c cs)
      have hb : (p0 == c) = false := beq_eq_false_iff_ne.mpr hc
      have htail : p0 ∉ cs := fun hm => h (List.mem_cons_of_mem _ hm)
      have hlt : cs.length < f := by
        have := hf
        simp only [List.length_cons] at this
        omega
      simp [replaceAllAux, List.isPrefixOf, hb, ih htail f hlt]

/-- Deleting a pattern that occurs exactly once, at the end. -/
theorem replaceAll_strip_end (p0 : Char) (pr ts : List Char) (h : p0 ∉ ts) :
    replaceAll (p0 :: pr) [] (ts ++ (p0 :: pr)) = ts := by
  unfold replaceAll
  apply replaceAllAux_strip_end p0 pr ts h
  rw [List.length_append, List.length_cons]
  omega

/-! ### Evaluation of the two parsers on canonical-form filenames -/

/-- A successful `strptime` validation forces exactly 14 characters. -/
theorem validTimestampList_length (ts : List Char) (hv : validTimestampList ts = true) :
    ts.length = 14 := by
  unfold validTimestampList at hv
  simp only [Bool.and_eq_true, beq_iff_eq] at hv
  tauto

/-- The regex tail accepts `ts ++ ".jpg"` for a digit string `ts` exactly
when `ts` is a valid 14-digit timestamp. -/
theorem imageTailCheck_canonical (ts : List Char) (hd : ∀ c ∈ ts, c.isDigit = true) :
    imageTailCheck (ts ++ ".jpg".data) = (if validTimestampList ts then some ts else none) := by
  have hJ : ".jpg".data = '.' :: 'j' :: 'p' :: 'g' :: [] := rfl
  cases hv : validTimestampList ts with
  | true =>
    have hlen : ts.length = 14 := validTimestampList_length ts hv
    unfold imageTailCheck
    rw [show (14 : ℕ) = ts.length from hlen.symm, List.take_left, List.drop_left]
    simp [List.all_eq_true.mpr hd, isPrefixOf_self, hv]
  | false =>
    rcases Nat.lt_trichotomy ts.length 14 with hlt | heq | hgt
    · obtain ⟨k, hk⟩ : ∃ k, 14 - ts.length = k + 1 := ⟨13 - ts.length, by omega⟩
      have htake : (ts ++ ".jpg".data).take 14 =
          ts ++ ('.' :: (('j' :: 'p' :: 'g' :: []).take k)) := by
        rw [List.take_append_eq_append_take, hk,
          List.take_of_length_le (by omega : ts.length ≤ 14), hJ, List.take_succ_cons]
      have hmem : '.' ∈ (ts ++ ".jpg".data).take 14 := by
        rw [htake]
        exact List.mem_append_right _ (List.mem_cons_self _ _)
      have hallf : ((ts ++ ".jpg".data).take 14).all Char.isDigit = false := by
        apply Bool.eq_false_iff.mpr
        intro htrue
        exact absurd (List.all_eq_true.mp htrue '.' hmem) (by decide)
      unfold imageTailCheck
      simp [hallf, hv]
    · unfold imageTailCheck
      rw [show (14 : ℕ) = ts.length from heq.symm, List.take_left, List.drop_left]
      simp [List.all_eq_true.mpr hd, isPrefixOf_self, hv]
    · have hdrop : (ts ++ ".jpg".data).drop 14 = ts.drop 14 ++ ".jpg".data := by
        rw [List.drop_append_eq_append_drop, show 14 - ts.length = 0 from by omega,
          List.drop_zero]
      have hne : ts.drop 14 ≠ [] := by
        intro hnil
        have := List.drop_eq_nil_iff.mp hnil
        omega
      obtain ⟨d, rest', hcons⟩ := List.exists_cons_of_ne_nil hne
      have hdmem : d ∈ ts := List.drop_subset 14 ts (by rw [hcons]; exact List.mem_cons_self _ _)
      have hdne : ('.' == d) = false := by
        apply beq_eq_false_iff_ne.mpr
        intro he
        have hdig := hd d hdmem
        rw [← he] at hdig
        exact absurd hdig (by decide)
      have hprefalse : ".jpg".data.isPrefixOf ((ts ++ ".jpg".data).drop 14) = false := by
        rw [hdrop, hcons, hJ]
        simp [List.isPrefixOf, hdne]
      unfold imageTailCheck
      simp [hprefalse, hv]

/-- `parse_ftp_filename`'s core on the canonical uppercase form: the
replace-chain extracts exactly `ts`, and the result is governed by the
`strptime` validation. -/
theorem parseFtpCore_canonical (ts : List Char) (hd : ∀ c ∈ ts, c.isDigit = true) :
    parseFtpCore (("Reolink_00_".data ++ ts) ++ ".jpg".data) =
      (if validTimestampList ts then some ts else none) := by
  have hdot : '.' ∉ ts := fun hm => absurd (hd '.' hm) (by decide)
  have hR : 'R' ∉ ts ++ ".jpg".data := by
    intro hm
    rcases List.mem_append.mp hm with h1 | h1
    · exact absurd (hd 'R' h1) (by decide)
    · exact absurd h1 (by decide)
  have hpre : "Reolink_00_".data.isPrefixOf (("Reolink_00_".data ++ ts) ++ ".jpg".data) =
      true := by
    rw [List.append_assoc]
    exact isPrefixOf_self_append _ _
  have h1 : replaceAll "Reolink_00_".data [] (("Reolink_00_".data ++ ts) ++ ".jpg".data) =
      ts ++ ".jpg".data := by
    rw [List.append_assoc]
    exact replaceAll_cancel_prefix 'R' "eolink_00_".data (ts ++ ".jpg".data) hR
  have h2 : replaceAll ".jpg".data [] (ts ++ ".jpg".data) = ts :=
    replaceAll_strip_end '.' "jpg".data ts hdot
  have h3 : replaceAll ".mp4".data [] ts = ts := replaceAll_no_occ '.' "mp4".data [] ts hdot
  have h4 : replaceAll ".txt".data [] ts = ts := replaceAll_no_occ '.' "txt".data [] ts hdot
  unfold parseFtpCore
  rw [hpre]
  simp only [if_true]
  rw [h1, h2, h3, h4]
  cases hv : validTimestampList ts with
  | true =>
    have hlen : ts.length = 14 := validTimestampList_length ts hv
    simp [hlen, hv]
  | false =>
    cases hl : ts.length == 14 <;> simp [hv, hl]

/-- `parse_ftp_filename`'s core rejects the lowercase prefix outright. -/
theorem parseFtpCore_lower (ts : List Char) :
    parseFtpCore (("reolink_00_".data ++ ts) ++ ".jpg".data) = none := by
  have hpre : "Reolink_00_".data.isPrefixOf (("reolink_00_".data ++ ts) ++ ".jpg".data) =
      false := by
    show (('R' == 'r') && _) = false
    simp
  unfold parseFtpCore
  rw [hpre]
  simp

/-- C8 (counterexample): the ftp-upload filename parser is not
case-insensitive in its prefix: `reolink_00_20260126233811.jpg` carries a
valid 14-digit timestamp (and is accepted by `parse_image_filename`), yet
`parse_ftp_filename` rejects it, because it requires the exact prefix
`Reolink_00_`. -/
theorem parse_ftp_filename_case_sensitive_counterexample :
    parse_ftp_filename "reolink_00_20260126233811.jpg" = none ∧
    validTimestampList "20260126233811".data = true ∧
    parse_image_filename "reolink_00_20260126233811.jpg" = some "20260126233811" := by
  refine ⟨by decide, by decide, by decide⟩

/-- C8 (amended): for a filename of the canonical form
`<prefix>_00_<digits>.jpg`, `parse_ftp_filename` requires the case-sensitive
prefix `Reolink_00_` (the lowercase prefix always fails), while
`parse_image_filename` tolerates lowercase only in the leading character;
with an accepted prefix, each parser succeeds with the extracted timestamp
exactly when the digit part is exactly 14 digits parseable as a valid
`YYYYMMDDHHMMSS` datetime, and fails (no timestamp, no frame) otherwise. -/
theorem filename_parsers_amended (ts : List Char) (hd : ∀ c ∈ ts, c.isDigit = true) :
    parse_ftp_filename (String.mk ("reolink_00_".data ++ ts ++ ".jpg".data)) = none ∧
    parse_ftp_filename (String.mk ("Reolink_00_".data ++ ts ++ ".jpg".data)) =
      (if validTimestampList ts then some (String.mk ts) else none) ∧
    parse_image_filename (String.mk ("Reolink_00_".data ++ ts ++ ".jpg".data)) =
      (if validTimestampList ts then some (String.mk ts) else none) ∧
    parse_image_filename (String.mk ("reolink_00_".data ++ ts ++ ".jpg".data)) =
      (if validTimestampList ts then some (String.mk ts) else none) := by
  have htail := imageTailCheck_canonical ts hd
  have hupper : parseImageCore (("Reolink_00_".data ++ ts) ++ ".jpg".data) =
      imageTailCheck (ts ++ ".jpg".data) := rfl
  have hlower : parseImageCore (("reolink_00_".data ++ ts) ++ ".jpg".data) =
      imageTailCheck (ts ++ ".jpg".data) := rfl
  refine ⟨?_, ?_, ?_, ?_⟩
  · show (parseFtpCore (("reolink_00_".data ++ ts) ++ ".jpg".data)).map _ = none
    rw [parseFtpCore_lower]
    rfl
  · show (parseFtpCore (("Reolink_00_".data ++ ts) ++ ".jpg".data)).map _ =
      (if validTimestampList ts then some (String.mk ts) else none)
    rw [parseFtpCore_canonical ts hd]
    cases hv : validTimestampList ts <;> simp [hv]
  · show (parseImageCore (("Reolink_00_".data ++ ts) ++ ".jpg".data)).map _ =
      (if validTimestampList ts then some (String.mk ts) else none)
    rw [hupper, htail]
    cases hv : validTimestampList ts <;> simp [hv]
  · show (parseImageCore (("reolink_00_".data ++ ts) ++ ".jpg".data)).map _ =
      (if validTimestampList ts then some (String.mk ts) else none)
    rw [hlower, htail]
    cases hv : validTimestampList ts <;> simp [hv]

/-- Witness for the amended C8 at the concrete timestamp `20260126233811`:
both parsers accept the uppercase form, the s3 parser also accepts the
lowercase form, and the ftp parser rejects the lowercase form. -/
theorem filename_parsers_amended_witness :
    parse_ftp_filename (String.mk ("Reolink_00_".data ++ "20260126233811".data ++
      ".jpg".data)) = some "20260126233811" ∧
    parse_ftp_filename (String.mk ("reolink_00_".data ++ "20260126233811".data ++
      ".jpg".data)) = none ∧
    parse_image_filename (String.mk ("reolink_00_".data ++ "20260126233811".data ++
      ".jpg".data)) = some "20260126233811" := by
  have h := filename_parsers_amended "20260126233811".data (by decide)
  have hv : validTimestampList "20260126233811".data = true := by decide
  refine ⟨?_, h.1, ?_⟩
  · have h2 := h.2.1
    rw [hv] at h2
    simpa using h2
  · have h4 := h.2.2.2
    rw [hv] at h4
    simpa using h4

end VibecastViewer
